import Mathlib

/-!
Verification development for the WqSat_Get package (query normalization,
tile-name parsing, and download orchestration for Sentinel-2 / Sentinel-3
catalog products).

The repository ships only documentation and notebook callers for the core
package, so each component below is a shallow embedding modelled from the
package specification: the coordinate model, the tile identifier grammar,
the query builder, the download orchestrator, and the region store.
Coordinates are modelled as rationals (decimal degrees), payload bytes as
lists of naturals, and the remote transport as an explicit environment.
-/

namespace WqSatGet

/-- Modelled from the spec: the two supported platform families. -/
inductive Platform
  | sentinel2
  | sentinel3
deriving DecidableEq

/-- Modelled from the spec: the closed set of product-type codes
(two optical Sentinel-2 codes, four Sentinel-3 OLCI codes seen in the
conformance examples). -/
inductive ProductType
  | s2msi1c
  | s2msi2a
  | ol1efr
  | ol1err
  | ol2wfr
  | ol2lfr
deriving DecidableEq

/-- Modelled from the spec: the closed compatibility table — the platform
family that each product-type code belongs to. -/
def platformOf : ProductType → Platform
  | .s2msi1c => .sentinel2
  | .s2msi2a => .sentinel2
  | .ol1efr => .sentinel3
  | .ol1err => .sentinel3
  | .ol2wfr => .sentinel3
  | .ol2lfr => .sentinel3

/-- Which inequality of an area specification failed validation. -/
inductive AreaFailure
  | northNotGtSouth
  | eastNotGtWest
  | bothInequalitiesViolated
  | pointOutOfRange
deriving DecidableEq

/-- Modelled from the spec: the validation-error taxonomy of the core
(all detected before any network call). -/
inductive WqError
  | invalidArea (f : AreaFailure)
  | conflictingQuery
  | incompatibleProductType
  | unparseableIdentifier (name : String)
  | invalidDates
  | missingParameter
  | emptyQuery
deriving DecidableEq

/-- Raw area specification as supplied by the user: a point or a
bounding box given by its N, S, E, W degree values. -/
inductive AreaInput
  | point (lat lon : Rat)
  | box (n s e w : Rat)
deriving DecidableEq

/-- Validated area of interest. -/
inductive AreaOfInterest
  | point (lat lon : Rat)
  | box (n s e w : Rat)
deriving DecidableEq

/-- Modelled from the spec: the Coordinate Model. Point mode requires
−90 ≤ lat ≤ 90 and −180 ≤ lon ≤ 180; bounding-box mode requires N > S and
E > W, and a violation reports which inequality failed. Pure and total. -/
def validateArea : AreaInput → Except WqError AreaOfInterest
  | .point lat lon =>
      if -90 ≤ lat ∧ lat ≤ 90 ∧ -180 ≤ lon ∧ lon ≤ 180 then
        .ok (.point lat lon)
      else
        .error (.invalidArea .pointOutOfRange)
  | .box n s e w =>
      if s < n then
        if w < e then .ok (.box n s e w)
        else .error (.invalidArea .eastNotGtWest)
      else
        if w < e then .error (.invalidArea .northNotGtSouth)
        else .error (.invalidArea .bothInequalitiesViolated)

/-- Calendar date, `YYYY-MM-DD`. -/
structure Date where
  year : Nat
  month : Nat
  day : Nat
deriving DecidableEq

/-- Lexicographic order on calendar dates. -/
def dateLe (a b : Date) : Bool :=
  a.year < b.year ||
    (a.year == b.year &&
      (a.month < b.month || (a.month == b.month && a.day ≤ b.day)))

/-- Modelled from the spec: the duck-typed settings dictionary consumed by
the core, with every field optional. -/
structure Settings where
  tile : Option String := none
  tiles_list : Option (List String) := none
  coordinates : Option AreaInput := none
  start_date : Option Date := none
  end_date : Option Date := none
  platform : Option Platform := none
  product_type : Option ProductType := none
  cloud : Option Nat := none

/-- An identifier field (single tile or list of tiles) is present. -/
def idsPresent (s : Settings) : Bool :=
  s.tile.isSome || s.tiles_list.isSome

/-- A filter field (area, time window, platform, product type or cloud
ceiling) is present. -/
def filterPresent (s : Settings) : Bool :=
  s.coordinates.isSome || s.start_date.isSome || s.end_date.isSome ||
    s.platform.isSome || s.product_type.isSome || s.cloud.isSome

/-- The canonical, backend-agnostic query object. -/
inductive Query
  | byIdentifiers (ids : List String)
  | byFilter (area : Option AreaOfInterest) (window : Option Date × Option Date)
      (platform : Platform) (product_type : ProductType) (cloud : Option Nat)
deriving DecidableEq

/-- The time window, when both ends are given, must be ordered. -/
def checkDates (s : Settings) : Bool :=
  match s.start_date, s.end_date with
  | some a, some b => dateLe a b
  | _, _ => true

/-- Modelled from the spec: the Query Builder. Validation order: reject a
mixed identifier/filter request, then validate the platform/product-type
pair against the compatibility table (the cloud ceiling is accepted only
for the optical family), then the time window and the area. No I/O. -/
def buildQuery (s : Settings) : Except WqError Query :=
  if idsPresent s && filterPresent s then .error .conflictingQuery
  else if idsPresent s then
    .ok (.byIdentifiers (s.tile.toList ++ s.tiles_list.getD []))
  else if filterPresent s then
    match s.platform, s.product_type with
    | some p, some pt =>
        if !(platformOf pt == p) then .error .incompatibleProductType
        else if s.cloud.isSome && !(p == .sentinel2) then
          .error .incompatibleProductType
        else if !(checkDates s) then .error .invalidDates
        else
          match s.coordinates with
          | none => .ok (.byFilter none (s.start_date, s.end_date) p pt s.cloud)
          | some a =>
              match validateArea a with
              | .error e => .error e
              | .ok aoi =>
                  .ok (.byFilter (some aoi) (s.start_date, s.end_date) p pt s.cloud)
    | _, _ => .error .missingParameter
  else .error .emptyQuery

/-- Modelled from the spec: a catalog product record — identifier, canonical
name, remote payload bytes, declared checksum, and availability flag. -/
structure ProductRecord where
  id : Nat
  name : String
  payload : List Nat
  checksum : Nat
  online : Bool
deriving DecidableEq

/-- The search pipeline with an injectable catalog client: the Query Builder
runs first and a malformed request is rejected before the client is ever
consulted. -/
def searchWith (client : Query → List ProductRecord) (s : Settings) :
    Except WqError (List ProductRecord) :=
  match buildQuery s with
  | .error e => .error e
  | .ok q => .ok (client q)

/-- What the Tile Identifier Parser extracts from a canonical product name. -/
structure TileInfo where
  platform : Platform
  product_type : ProductType
  sensingDate : Date
deriving DecidableEq

/-- Modelled from the spec: the known prefix table of the naming grammar —
each canonical product name starts with a satellite unit designator and the
product-type token, which together determine platform and product type. -/
def prefixTable : List (String × Platform × ProductType) :=
  [("S2A_MSIL1C", .sentinel2, .s2msi1c),
   ("S2B_MSIL1C", .sentinel2, .s2msi1c),
   ("S2C_MSIL1C", .sentinel2, .s2msi1c),
   ("S2A_MSIL2A", .sentinel2, .s2msi2a),
   ("S2B_MSIL2A", .sentinel2, .s2msi2a),
   ("S2C_MSIL2A", .sentinel2, .s2msi2a),
   ("S3A_OL_1_EFR___", .sentinel3, .ol1efr),
   ("S3B_OL_1_EFR___", .sentinel3, .ol1efr),
   ("S3A_OL_1_ERR___", .sentinel3, .ol1err),
   ("S3B_OL_1_ERR___", .sentinel3, .ol1err),
   ("S3A_OL_2_WFR___", .sentinel3, .ol2wfr),
   ("S3B_OL_2_WFR___", .sentinel3, .ol2wfr),
   ("S3A_OL_2_LFR___", .sentinel3, .ol2lfr),
   ("S3B_OL_2_LFR___", .sentinel3, .ol2lfr)]

/-- Value of a list of decimal digit characters. -/
def digitsToNat (cs : List Char) : Nat :=
  cs.foldl (fun a c => 10 * a + (c.toNat - 48)) 0

/-- Parse a 15-character `YYYYMMDDThhmmss` sensing timestamp and return its
calendar date. -/
def parseTimestamp : List Char → Option Date
  | [y1, y2, y3, y4, m1, m2, d1, d2, t, h1, h2, n1, n2, s1, s2] =>
      if [y1, y2, y3, y4, m1, m2, d1, d2].all Char.isDigit && t == 'T' &&
          [h1, h2, n1, n2, s1, s2].all Char.isDigit then
        some ⟨digitsToNat [y1, y2, y3, y4], digitsToNat [m1, m2],
          digitsToNat [d1, d2]⟩
      else none
  | _ => none

/-- Modelled from the spec: the Tile Identifier Parser. It matches the name
against the fixed prefix table of the supported grammar, then reads the
sensing timestamp that follows; any unrecognized format fails with an
`unparseableIdentifier` error naming the offending string. -/
def parseTile (name : String) : Except WqError TileInfo :=
  match prefixTable.find? (fun e => e.1.toList.isPrefixOf name.toList) with
  | none => .error (.unparseableIdentifier name)
  | some e =>
      match name.toList.drop e.1.length with
      | '_' :: rest =>
          match parseTimestamp (rest.take 15) with
          | some d => .ok ⟨e.2.1, e.2.2, d⟩
          | none => .error (.unparseableIdentifier name)
      | _ => .error (.unparseableIdentifier name)

/-! ### Download orchestration -/

/-- Local artifact store: canonical name to stored payload bytes. -/
def Storage : Type := String → Option (List Nat)

/-- Point update of the artifact store (`none` deletes the artifact). -/
def Storage.update (σ : Storage) (name : String) (v : Option (List Nat)) :
    Storage :=
  fun n => if n = name then v else σ n

/-- Modelled from the spec: the checksum algorithm is abstracted as a fixed
computable digest of the stored bytes. -/
def computeChecksum (bs : List Nat) : Nat :=
  bs.foldl (fun a b => a * 257 + b + 1) 0

/-- The injectable transport environment: whether the destination is
writable (structural), and how many payload bytes the transport delivers
for a given record id in one attempt (delivering at least the remaining
bytes means the transfer completes; fewer models a transport failure). -/
structure Env where
  writable : Bool
  deliver : Nat → Nat

/-- Classification of one record by the orchestrator. -/
inductive Outcome
  | downloaded
  | pending
deriving DecidableEq

/-- Modelled from the spec: orchestration of one record. Skip immediately
(treat as already downloaded) when a local artifact exists whose checksum
matches the declared one; otherwise place an offline record directly in
pending with no transfer; otherwise run a resumable transfer from the
current byte offset of the partial artifact (zero when absent), verify the
checksum after a complete transfer (discarding a corrupt artifact), and
keep a partial artifact under the same name after a transport failure.
Returns the outcome, the new store, and the bytes moved over the network. -/
def processRecord (env : Env) (σ : Storage) (r : ProductRecord) :
    Outcome × Storage × Nat :=
  let existing := (σ r.name).getD []
  if (σ r.name).isSome && (computeChecksum existing == r.checksum) then
    (.downloaded, σ, 0)
  else if !r.online then
    (.pending, σ, 0)
  else
    let offset := existing.length
    let remaining := r.payload.length - offset
    let delivered := min (env.deliver r.id) remaining
    let newBytes := existing ++ (r.payload.drop offset).take delivered
    if delivered == remaining then
      if computeChecksum newBytes == r.checksum then
        (.downloaded, σ.update r.name (some newBytes), delivered)
      else
        (.pending, σ.update r.name none, delivered)
    else
      (.pending, σ.update r.name (some newBytes), delivered)

/-- Result of a `download` call: the downloaded/pending partition, the final
artifact store, and a per-record log of network bytes moved. -/
structure DownloadResult where
  downloaded : List ProductRecord
  pending : List ProductRecord
  storage : Storage
  netLog : List (String × Nat)

/-- Structural failures, the only ones that abort a whole `download` call. -/
inductive StructuralError
  | noWritableDestination
deriving DecidableEq

/-- Folds `processRecord` over the records in input order, accumulating the
downloaded/pending partition and the network log. -/
def downloadAux (env : Env) : Storage → List ProductRecord → DownloadResult
  | σ, [] => ⟨[], [], σ, []⟩
  | σ, r :: rs =>
      let step := processRecord env σ r
      let rest := downloadAux env step.2.1 rs
      match step.1 with
      | .downloaded =>
          ⟨r :: rest.downloaded, rest.pending, rest.storage,
            (r.name, step.2.2) :: rest.netLog⟩
      | .pending =>
          ⟨rest.downloaded, r :: rest.pending, rest.storage,
            (r.name, step.2.2) :: rest.netLog⟩

/-- Modelled from the spec: the Download Orchestrator. A structural problem
(unwritable destination) aborts the whole call; otherwise every record is
classified as downloaded or pending and no per-item failure escapes. -/
def download (env : Env) (σ : Storage) (rs : List ProductRecord) :
    Except StructuralError DownloadResult :=
  if env.writable then .ok (downloadAux env σ rs)
  else .error .noWritableDestination

/-- Total network bytes recorded for one canonical name in a log. -/
def bytesFor (name : String) (log : List (String × Nat)) : Nat :=
  ((log.filter (fun e => e.1 == name)).map Prod.snd).sum

/-! ### Region store -/

/-- A named region's bounding-box coordinates, as the four-key mapping
returned by `get_coordinates`. -/
structure Coordinates where
  E : Rat
  N : Rat
  S : Rat
  W : Rat
deriving DecidableEq

/-- Modelled from the spec: the configuration/region collaborator's store
update — `update_regions(name, W, S, E, N)` records the coordinates under
the region name, replacing any previous entry of that name. -/
def update_regions (regions : List (String × Coordinates)) (name : String)
    (w s e n : Rat) : List (String × Coordinates) :=
  (name, ⟨e, n, s, w⟩) :: regions.filter (fun p => !(p.1 == name))

/-- Modelled from the spec: `get_coordinates(name)` returns the stored
four-key mapping of the named region. -/
def get_coordinates (regions : List (String × Coordinates)) (name : String) :
    Option Coordinates :=
  (regions.find? (fun p => p.1 == name)).map Prod.snd

/-! ### Lemmas about the orchestrator -/

lemma downloadAux_nil (env : Env) (σ : Storage) :
    downloadAux env σ [] = ⟨[], [], σ, []⟩ := rfl

lemma downloadAux_cons (env : Env) (σ : Storage) (r : ProductRecord)
    (rs : List ProductRecord) :
    downloadAux env σ (r :: rs) =
      match (processRecord env σ r).1 with
      | .downloaded =>
          ⟨r :: (downloadAux env (processRecord env σ r).2.1 rs).downloaded,
            (downloadAux env (processRecord env σ r).2.1 rs).pending,
            (downloadAux env (processRecord env σ r).2.1 rs).storage,
            (r.name, (processRecord env σ r).2.2) ::
              (downloadAux env (processRecord env σ r).2.1 rs).netLog⟩
      | .pending =>
          ⟨(downloadAux env (processRecord env σ r).2.1 rs).downloaded,
            r :: (downloadAux env (processRecord env σ r).2.1 rs).pending,
            (downloadAux env (processRecord env σ r).2.1 rs).storage,
            (r.name, (processRecord env σ r).2.2) ::
              (downloadAux env (processRecord env σ r).2.1 rs).netLog⟩ := rfl

/-- `processRecord` can change the store only at the record's own name. -/
lemma processRecord_storage_other (env : Env) (σ : Storage) (r : ProductRecord)
    (nm : String) (h : nm ≠ r.name) :
    (processRecord env σ r).2.1 nm = σ nm := by
  unfold processRecord
  dsimp only
  split
  · rfl
  · split
    · rfl
    · split
      · split
        · simp [Storage.update, h]
        · simp [Storage.update, h]
      · simp [Storage.update, h]

/-- The downloaded/pending partition is a permutation of the input. -/
lemma downloadAux_perm (env : Env) :
    ∀ (rs : List ProductRecord) (σ : Storage),
      List.Perm ((downloadAux env σ rs).downloaded ++ (downloadAux env σ rs).pending) rs
  | [], σ => by simp [downloadAux_nil]
  | r :: rs, σ => by
      rw [downloadAux_cons]
      cases (processRecord env σ r).1 with
      | downloaded =>
          exact List.Perm.cons r (downloadAux_perm env rs _)
      | pending =>
          exact List.perm_middle.trans
            (List.Perm.cons r (downloadAux_perm env rs _))

/-- A record sequence that mentions a name nowhere leaves the store
unchanged at that name. -/
lemma downloadAux_storage_stable (env : Env) :
    ∀ (rs : List ProductRecord) (σ : Storage) (nm : String),
      (∀ r ∈ rs, r.name ≠ nm) → (downloadAux env σ rs).storage nm = σ nm
  | [], σ, nm, _ => rfl
  | r :: rs, σ, nm, h => by
      rw [downloadAux_cons]
      have hr : r.name ≠ nm := h r (List.mem_cons_self r rs)
      have htail : ∀ x ∈ rs, x.name ≠ nm := fun x hx => h x (List.mem_cons_of_mem r hx)
      have hstep : (processRecord env σ r).2.1 nm = σ nm :=
        processRecord_storage_other env σ r nm (Ne.symm hr)
      cases (processRecord env σ r).1 with
      | downloaded =>
          simpa [downloadAux_storage_stable env rs _ nm htail] using hstep
      | pending =>
          simpa [downloadAux_storage_stable env rs _ nm htail] using hstep

/-- The names appearing in the network log are exactly the input names. -/
lemma downloadAux_netLog_names (env : Env) :
    ∀ (rs : List ProductRecord) (σ : Storage),
      (downloadAux env σ rs).netLog.map Prod.fst = rs.map (fun r => r.name)
  | [], σ => rfl
  | r :: rs, σ => by
      rw [downloadAux_cons]
      cases (processRecord env σ r).1 with
      | downloaded => simp [downloadAux_netLog_names env rs]
      | pending => simp [downloadAux_netLog_names env rs]

lemma bytesFor_append (nm : String) (l1 l2 : List (String × Nat)) :
    bytesFor nm (l1 ++ l2) = bytesFor nm l1 + bytesFor nm l2 := by
  simp [bytesFor, List.filter_append]

lemma bytesFor_zero_of_names (nm : String) (log : List (String × Nat))
    (h : ∀ e ∈ log, e.1 ≠ nm) : bytesFor nm log = 0 := by
  have : log.filter (fun e => e.1 == nm) = [] := by
    apply List.filter_eq_nil_iff.mpr
    intro e he
    simpa using h e he
  simp [bytesFor, this]

lemma bytesFor_cons_self (nm : String) (b : Nat) (log : List (String × Nat)) :
    bytesFor nm ((nm, b) :: log) = b + bytesFor nm log := by
  simp [bytesFor]

/-- Records whose names avoid `nm` contribute no bytes at `nm`. -/
lemma downloadAux_bytes_zero (env : Env) (rs : List ProductRecord) (σ : Storage)
    (nm : String) (h : ∀ r ∈ rs, r.name ≠ nm) :
    bytesFor nm (downloadAux env σ rs).netLog = 0 := by
  apply bytesFor_zero_of_names
  intro e he
  have : e.1 ∈ (downloadAux env σ rs).netLog.map Prod.fst := List.mem_map_of_mem _ he
  rw [downloadAux_netLog_names] at this
  obtain ⟨r, hr, hname⟩ := List.mem_map.mp this
  exact hname ▸ h r hr

/-- Splitting a `download` run at an append boundary. -/
lemma downloadAux_append (env : Env) :
    ∀ (l1 l2 : List ProductRecord) (σ : Storage),
      downloadAux env σ (l1 ++ l2) =
        ⟨(downloadAux env σ l1).downloaded ++
            (downloadAux env (downloadAux env σ l1).storage l2).downloaded,
          (downloadAux env σ l1).pending ++
            (downloadAux env (downloadAux env σ l1).storage l2).pending,
          (downloadAux env (downloadAux env σ l1).storage l2).storage,
          (downloadAux env σ l1).netLog ++
            (downloadAux env (downloadAux env σ l1).storage l2).netLog⟩
  | [], l2, σ => by simp [downloadAux_nil]
  | r :: l1, l2, σ => by
      rw [List.cons_append, downloadAux_cons, downloadAux_cons,
        downloadAux_append env l1 l2]
      cases (processRecord env σ r).1 with
      | downloaded => rfl
      | pending => rfl

/-- A matching local artifact makes the orchestrator skip the record,
treating it as already downloaded, with no network activity. -/
lemma processRecord_skip (env : Env) (σ : Storage) (r : ProductRecord)
    (bs : List Nat) (h : σ r.name = some bs)
    (hck : computeChecksum bs = r.checksum) :
    processRecord env σ r = (.downloaded, σ, 0) := by
  unfold processRecord
  simp [h, hck]

/-- A record classified as downloaded leaves behind an artifact whose
checksum matches its declared one. -/
lemma processRecord_downloaded_post (env : Env) (σ : Storage)
    (r : ProductRecord) (h : (processRecord env σ r).1 = .downloaded) :
    ∃ bs, (processRecord env σ r).2.1 r.name = some bs ∧
      computeChecksum bs = r.checksum := by
  rcases hpr : processRecord env σ r with ⟨o, σ2, b⟩
  rw [hpr] at h
  dsimp at h
  subst h
  unfold processRecord at hpr
  simp only [] at hpr
  split at hpr
  · next hcond =>
      simp only [Prod.mk.injEq] at hpr
      obtain ⟨h1, h2, h3⟩ := hpr
      subst h2
      simp only [Bool.and_eq_true, beq_iff_eq, Option.isSome_iff_exists] at hcond
      obtain ⟨⟨bs, hbs⟩, hck⟩ := hcond
      refine ⟨bs, hbs, ?_⟩
      rw [hbs] at hck
      simpa using hck
  · split at hpr
    · simp at hpr
    · split at hpr
      · split at hpr
        · next hck =>
            simp only [Prod.mk.injEq] at hpr
            obtain ⟨h1, h2, h3⟩ := hpr
            subst h2
            refine ⟨_, ?_, by simpa using hck⟩
            simp [Storage.update]
        · simp at hpr
      · simp at hpr

/-- An offline record with no matching local artifact is placed directly in
pending, with the store untouched and no network activity. -/
lemma processRecord_offline (env : Env) (σ : Storage) (r : ProductRecord)
    (hoff : r.online = false)
    (hart : ∀ bs, σ r.name = some bs → computeChecksum bs ≠ r.checksum) :
    processRecord env σ r = (.pending, σ, 0) := by
  unfold processRecord
  have hskip : ((σ r.name).isSome && (computeChecksum ((σ r.name).getD []) == r.checksum)) = false := by
    cases hs : σ r.name with
    | none => simp [hs]
    | some bs => simp [hs, hart bs hs]
  simp [hskip, hoff]

/-- A strictly partial artifact makes the orchestrator resume from its byte
offset: a transport that can deliver the remaining bytes moves exactly
`payload.length − N` bytes, and one that cannot leaves the extended partial
artifact in place under the record's own name. -/
lemma processRecord_resume (env : Env) (σ : Storage) (r : ProductRecord)
    (N : Nat) (hpart : σ r.name = some (r.payload.take N))
    (hN : N < r.payload.length)
    (hnot : computeChecksum (r.payload.take N) ≠ r.checksum)
    (hon : r.online = true) :
    (r.payload.length - N ≤ env.deliver r.id →
        (processRecord env σ r).2.2 = r.payload.length - N)
    ∧ (env.deliver r.id < r.payload.length - N →
        processRecord env σ r =
          (.pending,
            σ.update r.name (some (r.payload.take (N + env.deliver r.id))),
            env.deliver r.id)) := by
  have hlen : (r.payload.take N).length = N := by
    rw [List.length_take]
    exact Nat.min_eq_left hN.le
  have hck : (computeChecksum (r.payload.take N) == r.checksum) = false :=
    beq_eq_false_iff_ne.mpr hnot
  constructor
  · intro hge
    have hmin : min (env.deliver r.id) (r.payload.length - N) =
        r.payload.length - N := Nat.min_eq_right hge
    unfold processRecord
    simp only [hpart, Option.getD_some, Option.isSome_some, Bool.true_and,
      hck, Bool.false_eq_true, if_false, hon, Bool.not_true, hlen, hmin]
    split
    · split <;> rfl
    · rfl
  · intro hlt
    have hmin : min (env.deliver r.id) (r.payload.length - N) =
        env.deliver r.id := Nat.min_eq_left hlt.le
    have hne : (env.deliver r.id == r.payload.length - N) = false :=
      beq_eq_false_iff_ne.mpr (Nat.ne_of_lt hlt)
    unfold processRecord
    simp only [hpart, Option.getD_some, Option.isSome_some, Bool.true_and,
      hck, Bool.false_eq_true, if_false, hon, Bool.not_true, hlen, hmin, hne]
    simp [List.take_add]

/-- Focusing a `download` run on one record whose name is unique in the
input: its log bytes, its final artifact, and its classification are those
of its own `processRecord` step, run in the store left by the records
before it. -/
lemma downloadAux_focus (env : Env) (σ : Storage) (l1 l2 : List ProductRecord)
    (r : ProductRecord)
    (h1 : ∀ x ∈ l1, x.name ≠ r.name) (h2 : ∀ x ∈ l2, x.name ≠ r.name) :
    bytesFor r.name (downloadAux env σ (l1 ++ r :: l2)).netLog
        = (processRecord env (downloadAux env σ l1).storage r).2.2
    ∧ (downloadAux env σ (l1 ++ r :: l2)).storage r.name
        = (processRecord env (downloadAux env σ l1).storage r).2.1 r.name
    ∧ ((processRecord env (downloadAux env σ l1).storage r).1 = .downloaded →
        r ∈ (downloadAux env σ (l1 ++ r :: l2)).downloaded)
    ∧ ((processRecord env (downloadAux env σ l1).storage r).1 = .pending →
        r ∈ (downloadAux env σ (l1 ++ r :: l2)).pending) := by
  rw [downloadAux_append env l1 (r :: l2) σ]
  rw [downloadAux_cons]
  cases ho : (processRecord env (downloadAux env σ l1).storage r).1 with
  | downloaded =>
      dsimp only
      refine ⟨?_, ?_, ?_, ?_⟩
      · rw [bytesFor_append, downloadAux_bytes_zero env l1 σ r.name h1,
          bytesFor_cons_self,
          downloadAux_bytes_zero env l2 _ r.name h2]
        omega
      · exact downloadAux_storage_stable env l2 _ r.name h2
      · intro _
        exact List.mem_append_right _ (List.mem_cons_self r _)
      · intro hcontra
        simp at hcontra
  | pending =>
      dsimp only
      refine ⟨?_, ?_, ?_, ?_⟩
      · rw [bytesFor_append, downloadAux_bytes_zero env l1 σ r.name h1,
          bytesFor_cons_self,
          downloadAux_bytes_zero env l2 _ r.name h2]
        omega
      · exact downloadAux_storage_stable env l2 _ r.name h2
      · intro hcontra
        simp at hcontra
      · intro _
        exact List.mem_append_right _ (List.mem_cons_self r _)

/-- A record occurring in a name-wise duplicate-free sequence splits it into
a left and right part that avoid its name. -/
lemma mem_split_of_nodup_names (rs : List ProductRecord) (r : ProductRecord)
    (hnd : (rs.map (fun x => x.name)).Nodup) (h : r ∈ rs) :
    ∃ l1 l2, rs = l1 ++ r :: l2 ∧ (∀ x ∈ l1, x.name ≠ r.name) ∧
      (∀ x ∈ l2, x.name ≠ r.name) := by
  obtain ⟨l1, l2, rfl⟩ := List.append_of_mem h
  refine ⟨l1, l2, rfl, ?_, ?_⟩
  all_goals
    rw [List.map_append, List.map_cons] at hnd
    have hmid := (List.nodup_middle.mp hnd)
    rw [List.nodup_cons] at hmid
    have hnotin := hmid.1
    intro x hx hxn
    apply hnotin
    rw [← hxn]
  · exact List.mem_append_left _ (List.mem_map_of_mem _ hx)
  · exact List.mem_append_right _ (List.mem_map_of_mem _ hx)

/-! ### Lemmas about the query layer -/

/-- An invalid bounding box always fails area validation with an
`invalidArea` error. -/
lemma validateArea_box_error (n s e w : Rat) (hbad : ¬(s < n ∧ w < e)) :
    ∃ f, validateArea (.box n s e w) = .error (.invalidArea f) := by
  by_cases h1 : s < n
  · by_cases h2 : w < e
    · exact absurd ⟨h1, h2⟩ hbad
    · exact ⟨.eastNotGtWest, by simp [validateArea, h1, h2]⟩
  · by_cases h2 : w < e
    · exact ⟨.northNotGtSouth, by simp [validateArea, h1, h2]⟩
    · exact ⟨.bothInequalitiesViolated, by simp [validateArea, h1, h2]⟩

/-- With an invalid bounding box among the settings, the Query Builder
always fails, whatever else is present. -/
lemma buildQuery_error_of_bad_box (stg : Settings) (n s e w : Rat)
    (hc : stg.coordinates = some (.box n s e w))
    (hbad : ¬(s < n ∧ w < e)) :
    ∃ err, buildQuery stg = .error err := by
  have hf : filterPresent stg = true := by simp [filterPresent, hc]
  cases hi : idsPresent stg with
  | true => exact ⟨.conflictingQuery, by simp [buildQuery, hi, hf]⟩
  | false =>
      cases hp : stg.platform with
      | none => exact ⟨.missingParameter, by simp [buildQuery, hi, hf, hp]⟩
      | some p =>
          cases hpt : stg.product_type with
          | none => exact ⟨.missingParameter, by simp [buildQuery, hi, hf, hp, hpt]⟩
          | some pt =>
              by_cases hcompat : (platformOf pt == p) = true
              · by_cases hcloud : (stg.cloud.isSome && !(p == Platform.sentinel2)) = true
                · exact ⟨.incompatibleProductType,
                    by simp [buildQuery, hi, hf, hp, hpt, hcompat, hcloud]⟩
                · have hcloud' : (stg.cloud.isSome && !(p == Platform.sentinel2)) = false := by
                    simpa using hcloud
                  by_cases hdates : checkDates stg = true
                  · obtain ⟨f, hval⟩ := validateArea_box_error n s e w hbad
                    exact ⟨.invalidArea f,
                      by simp [buildQuery, hi, hf, hp, hpt, hcompat, hcloud', hdates, hc, hval]⟩
                  · have hdates' : checkDates stg = false := by simpa using hdates
                    exact ⟨.invalidDates,
                      by simp [buildQuery, hi, hf, hp, hpt, hcompat, hcloud', hdates']⟩
              · have hcompat' : (platformOf pt == p) = false := by simpa using hcompat
                exact ⟨.incompatibleProductType,
                  by simp [buildQuery, hi, hf, hp, hpt, hcompat']⟩

/-! ### Concrete sample objects used to instantiate the theorems -/

/-- Sample environment: writable destination, generous transport. -/
def sEnv : Env := ⟨true, fun _ => 100⟩

/-- Sample empty artifact store. -/
def sStorage : Storage := fun _ => none

/-- Sample online record whose declared checksum matches its payload. -/
def sRec1 : ProductRecord := ⟨1, "R1", [3, 4], computeChecksum [3, 4], true⟩

/-- Sample offline record. -/
def sRec2 : ProductRecord := ⟨2, "R2", [5], 0, false⟩

/-- Offline record that nevertheless has a complete matching local
artifact in `offStorage`. -/
def offRecord : ProductRecord := ⟨7, "T30TWM", [1, 2], computeChecksum [1, 2], false⟩

/-- Store already holding the full verified artifact of `offRecord`. -/
def offStorage : Storage := fun n => if n = "T30TWM" then some [1, 2] else none

/-- Writable environment whose transport delivers nothing. -/
def offEnv : Env := ⟨true, fun _ => 0⟩

/-- Record with a strictly partial local artifact in `dStorage`. -/
def dRec : ProductRecord := ⟨3, "D", [5, 6, 7], computeChecksum [5, 6, 7], true⟩

/-- Store holding the first byte of `dRec`'s payload. -/
def dStorage : Storage := fun n => if n = "D" then some [5] else none

/-! ### Claim theorems -/

/-- C1: For every input sequence of product records, `download` partitions
the attempted records into two disjoint ordered sequences: the lengths of
`downloaded` and `pending` sum to the input length, every record passed to
the orchestrator appears in one of them, and (for a duplicate-free record
set) no record appears in both. -/
theorem download_partition (env : Env) (σ : Storage) (rs : List ProductRecord)
    (res : DownloadResult) (h : download env σ rs = .ok res) :
    res.downloaded.length + res.pending.length = rs.length
    ∧ (∀ r, r ∈ rs ↔ (r ∈ res.downloaded ∨ r ∈ res.pending))
    ∧ (rs.Nodup → ∀ r, ¬(r ∈ res.downloaded ∧ r ∈ res.pending)) := by
  unfold download at h
  split at h
  · injection h with h
    subst h
    have hperm := downloadAux_perm env rs σ
    refine ⟨?_, ?_, ?_⟩
    · have hlen := hperm.length_eq
      simpa using hlen
    · intro r
      rw [← hperm.mem_iff, List.mem_append]
    · intro hnd r hboth
      have hnodup := hperm.symm.nodup hnd
      exact (List.nodup_append.mp hnodup).2.2 hboth.1 hboth.2
  · cases h

/-- C1 witness at a concrete two-record input. -/
theorem download_partition_witness :
    (downloadAux sEnv sStorage [sRec1, sRec2]).downloaded.length +
        (downloadAux sEnv sStorage [sRec1, sRec2]).pending.length = 2
    ∧ ¬(sRec1 ∈ (downloadAux sEnv sStorage [sRec1, sRec2]).downloaded ∧
        sRec1 ∈ (downloadAux sEnv sStorage [sRec1, sRec2]).pending) := by
  have h := download_partition sEnv sStorage [sRec1, sRec2]
    (downloadAux sEnv sStorage [sRec1, sRec2]) rfl
  exact ⟨h.1, h.2.2 (by decide) sRec1⟩

/-- C6: `download` never raises for a single-item failure: when the
destination is writable the call returns a result classifying every record
as downloaded or pending, and the call errors only for the structural
problem of an unwritable destination. -/
theorem download_no_item_failure (env : Env) (σ : Storage)
    (rs : List ProductRecord) :
    (env.writable = true →
      ∃ res, download env σ rs = .ok res ∧
        ∀ r ∈ rs, r ∈ res.downloaded ∨ r ∈ res.pending)
    ∧ (env.writable = false →
      download env σ rs = .error .noWritableDestination) := by
  constructor
  · intro hw
    refine ⟨downloadAux env σ rs, by simp [download, hw], ?_⟩
    intro r hr
    have hperm := downloadAux_perm env rs σ
    have hmem := hperm.mem_iff.mpr hr
    simpa using hmem
  · intro hw
    simp [download, hw]

/-- C6 witness at a concrete input with one failing (offline) record. -/
theorem download_no_item_failure_witness :
    ∃ res, download sEnv sStorage [sRec2] = .ok res ∧
      ∀ r ∈ [sRec2], r ∈ res.downloaded ∨ r ∈ res.pending :=
  (download_no_item_failure sEnv sStorage [sRec2]).1 rfl

/-- C10: storing a region's coordinates with `update_regions` and looking
the region up again with `get_coordinates` returns exactly the four stored
values. -/
theorem region_roundtrip (regions : List (String × Coordinates))
    (name : String) (w s e n : Rat) :
    get_coordinates (update_regions regions name w s e n) name =
      some ⟨e, n, s, w⟩ := by
  simp [get_coordinates, update_regions]

/-- C2: bounding-box validation succeeds exactly when N > S and E > W; a
violation raises an `invalidArea` error identifying the failing
inequality; and with an invalid box among the settings no query object is
produced and the result does not depend on the catalog client, so no
network call is made. -/
theorem coordinate_validation (n s e w : Rat) :
    ((validateArea (.box n s e w)).isOk = true ↔ (s < n ∧ w < e))
    ∧ (s < n → ¬w < e →
        validateArea (.box n s e w) = .error (.invalidArea .eastNotGtWest))
    ∧ (¬s < n → w < e →
        validateArea (.box n s e w) = .error (.invalidArea .northNotGtSouth))
    ∧ (¬s < n → ¬w < e →
        validateArea (.box n s e w) =
          .error (.invalidArea .bothInequalitiesViolated))
    ∧ (∀ stg cl1 cl2, stg.coordinates = some (.box n s e w) →
        ¬(s < n ∧ w < e) →
        (∀ q, buildQuery stg ≠ .ok q) ∧
          searchWith cl1 stg = searchWith cl2 stg) := by
  refine ⟨?_, ?_, ?_, ?_, ?_⟩
  · constructor
    · intro hok
      by_contra hbad
      obtain ⟨f, hval⟩ := validateArea_box_error n s e w hbad
      rw [hval] at hok
      simp [Except.isOk, Except.toBool] at hok
    · rintro ⟨h1, h2⟩
      simp [validateArea, h1, h2, Except.isOk, Except.toBool]
  · intro h1 h2
    simp [validateArea, h1, h2]
  · intro h1 h2
    simp [validateArea, h1, h2]
  · intro h1 h2
    simp [validateArea, h1, h2]
  · intro stg cl1 cl2 hc hbad
    obtain ⟨err, herr⟩ := buildQuery_error_of_bad_box stg n s e w hc hbad
    constructor
    · intro q hq
      rw [herr] at hq
      cases hq
    · simp [searchWith, herr]

/-- C2 witness: the Scenario-B style box with N < S fails naming the N/S
inequality. -/
theorem coordinate_validation_witness :
    validateArea (.box 39 40 3 2) = .error (.invalidArea .northNotGtSouth) := by
  have h := coordinate_validation 39 40 3 2
  exact h.2.2.1 (by decide) (by decide)

/-- C3: a successful Query Builder run means exactly one of identifiers or
filter fields was present; both present always fails with the conflict
error, and neither present always fails. -/
theorem query_exclusivity (s : Settings) :
    (∀ q, buildQuery s = .ok q →
      (idsPresent s = true ∧ filterPresent s = false) ∨
        (idsPresent s = false ∧ filterPresent s = true))
    ∧ (idsPresent s = true → filterPresent s = true →
        buildQuery s = .error .conflictingQuery)
    ∧ (idsPresent s = false → filterPresent s = false →
        ∀ q, buildQuery s ≠ .ok q) := by
  refine ⟨?_, ?_, ?_⟩
  · intro q hq
    cases hi : idsPresent s with
    | true =>
        cases hf : filterPresent s with
        | true =>
            rw [show buildQuery s = .error .conflictingQuery from
              by simp [buildQuery, hi, hf]] at hq
            cases hq
        | false => exact Or.inl ⟨rfl, rfl⟩
    | false =>
        cases hf : filterPresent s with
        | true => exact Or.inr ⟨rfl, rfl⟩
        | false =>
            rw [show buildQuery s = .error .emptyQuery from
              by simp [buildQuery, hi, hf]] at hq
            cases hq
  · intro hi hf
    simp [buildQuery, hi, hf]
  · intro hi hf q
    simp [buildQuery, hi, hf]

/-- C3 witness: a request carrying both a tile identifier and a cloud
filter fails with the conflict error. -/
theorem query_exclusivity_witness :
    buildQuery { tile := some "S2A", cloud := some 20 } =
      .error .conflictingQuery := by
  have h := query_exclusivity { tile := some "S2A", cloud := some 20 }
  exact h.2.1 (by decide) (by decide)

/-- C8: in filter mode the platform/product-type pair is validated against
the closed compatibility table and a cloud ceiling is accepted only for
the optical platform: an incompatible pair, or a cloud ceiling on the
non-optical platform, fails with the incompatible-product error before any
catalog client is consulted. -/
theorem filter_compatibility (s : Settings) (p : Platform) (pt : ProductType)
    (hid : idsPresent s = false)
    (hp : s.platform = some p) (hpt : s.product_type = some pt) :
    (platformOf pt ≠ p →
      buildQuery s = .error .incompatibleProductType ∧
        ∀ cl, searchWith cl s = .error .incompatibleProductType)
    ∧ (s.cloud.isSome = true → p ≠ Platform.sentinel2 →
      buildQuery s = .error .incompatibleProductType ∧
        ∀ cl, searchWith cl s = .error .incompatibleProductType) := by
  have hf : filterPresent s = true := by simp [filterPresent, hp]
  have hmk : ∀ hb : buildQuery s = .error .incompatibleProductType,
      buildQuery s = .error .incompatibleProductType ∧
        ∀ cl, searchWith cl s = .error .incompatibleProductType :=
    fun hb => ⟨hb, fun cl => by simp [searchWith, hb]⟩
  constructor
  · intro hne
    have hne' : (platformOf pt == p) = false := beq_eq_false_iff_ne.mpr hne
    exact hmk (by simp [buildQuery, hid, hf, hp, hpt, hne'])
  · intro hcloud hne
    by_cases hcompat : platformOf pt = p
    · have hcompat' : (platformOf pt == p) = true := beq_iff_eq.mpr hcompat
      have hsent : (p == Platform.sentinel2) = false := beq_eq_false_iff_ne.mpr hne
      exact hmk (by simp [buildQuery, hid, hf, hp, hpt, hcompat', hcloud, hsent])
    · have hne' : (platformOf pt == p) = false := beq_eq_false_iff_ne.mpr hcompat
      exact hmk (by simp [buildQuery, hid, hf, hp, hpt, hne'])

/-- C8 witness: a cloud ceiling supplied for the Sentinel-3 family fails
with the incompatible-product error. -/
theorem filter_compatibility_witness :
    buildQuery
        { platform := some Platform.sentinel3,
          product_type := some ProductType.ol1efr, cloud := some 20 } =
      .error .incompatibleProductType := by
  have h := filter_compatibility
    { platform := some Platform.sentinel3,
      product_type := some ProductType.ol1efr, cloud := some 20 }
    Platform.sentinel3 ProductType.ol1efr (by decide) rfl rfl
  exact (h.2 (by decide) (by decide)).1

/-- C7: the Tile Identifier Parser deterministically extracts platform and
product type matching the name's entry in the known prefix table; the
Scenario-C name yields SENTINEL-2 / S2MSI1C with sensing date 2025-02-01;
and every failure reports an `unparseableIdentifier` error naming the
offending string. -/
theorem tile_parsing :
    parseTile "S2B_MSIL1C_20250201T110159_N0511_R094_T30TWM_20250201T114539.SAFE"
        = .ok ⟨.sentinel2, .s2msi1c, ⟨2025, 2, 1⟩⟩
    ∧ (∀ name info, parseTile name = .ok info →
        ∃ e ∈ prefixTable, e.1.toList.isPrefixOf name.toList = true ∧
          info.platform = e.2.1 ∧ info.product_type = e.2.2)
    ∧ (∀ name err, parseTile name = .error err →
        err = .unparseableIdentifier name) := by
  refine ⟨rfl, ?_, ?_⟩
  · intro name info h
    unfold parseTile at h
    cases hfind : prefixTable.find? (fun e => e.1.toList.isPrefixOf name.toList) with
    | none =>
        rw [hfind] at h
        cases h
    | some e =>
        rw [hfind] at h
        dsimp only at h
        refine ⟨e, List.mem_of_find?_eq_some hfind,
          by simpa using List.find?_some hfind, ?_⟩
        split at h
        · split at h
          · cases h
            exact ⟨rfl, rfl⟩
          · cases h
        · cases h
  · intro name err h
    unfold parseTile at h
    cases hfind : prefixTable.find? (fun e => e.1.toList.isPrefixOf name.toList) with
    | none =>
        rw [hfind] at h
        cases h
        rfl
    | some e =>
        rw [hfind] at h
        dsimp only at h
        split at h
        · split at h
          · cases h
          · cases h
            rfl
        · cases h
          rfl

/-- C7 witness: the Scenario-C name's parse matches the prefix table. -/
theorem tile_parsing_witness :
    ∃ e ∈ prefixTable,
      e.1.toList.isPrefixOf
        "S2B_MSIL1C_20250201T110159_N0511_R094_T30TWM_20250201T114539.SAFE".toList
          = true ∧
      (⟨Platform.sentinel2, ProductType.s2msi1c, ⟨2025, 2, 1⟩⟩ : TileInfo).platform
          = e.2.1 ∧
      (⟨Platform.sentinel2, ProductType.s2msi1c, ⟨2025, 2, 1⟩⟩ : TileInfo).product_type
          = e.2.2 :=
  tile_parsing.2.1
    "S2B_MSIL1C_20250201T110159_N0511_R094_T30TWM_20250201T114539.SAFE"
    ⟨Platform.sentinel2, ProductType.s2msi1c, ⟨2025, 2, 1⟩⟩ rfl

/-- C4: `download` is idempotent — a record classified as downloaded by a
first call causes zero network transfer in a second call run on the first
call's final artifact store (record names being unique, as one output file
exists per record) — and a record is skipped immediately, treated as
already downloaded, whenever a matching local artifact already exists. -/
theorem download_idempotence (env : Env) (σ : Storage)
    (rs : List ProductRecord) (res1 res2 : DownloadResult) (r : ProductRecord)
    (hnd : (rs.map (fun x => x.name)).Nodup)
    (h1 : download env σ rs = .ok res1)
    (h2 : download env res1.storage rs = .ok res2)
    (hr : r ∈ res1.downloaded) :
    bytesFor r.name res2.netLog = 0
    ∧ (∀ σ2 x bs, σ2 x.name = some bs → computeChecksum bs = x.checksum →
        processRecord env σ2 x = (.downloaded, σ2, 0)) := by
  refine ⟨?_, fun σ2 x bs hb hc => processRecord_skip env σ2 x bs hb hc⟩
  have hw : env.writable = true := by
    by_contra hw
    have hw' : env.writable = false := by simpa using hw
    simp [download, hw'] at h1
  have hres1 : downloadAux env σ rs = res1 := by
    have h1c := h1
    simp [download, hw] at h1c
    exact h1c
  have hres2 : downloadAux env res1.storage rs = res2 := by
    have h2c := h2
    simp [download, hw] at h2c
    exact h2c
  subst hres1
  subst hres2
  have hperm := downloadAux_perm env rs σ
  have hmem : r ∈ rs := hperm.mem_iff.mp (List.mem_append_left _ hr)
  obtain ⟨l1, l2, hsplit, hl1, hl2⟩ := mem_split_of_nodup_names rs r hnd hmem
  subst hsplit
  have hfocus1 := downloadAux_focus env σ l1 l2 r hl1 hl2
  have hdisj : ¬(r ∈ (downloadAux env σ (l1 ++ r :: l2)).downloaded ∧
      r ∈ (downloadAux env σ (l1 ++ r :: l2)).pending) := by
    have hnodup : (l1 ++ r :: l2).Nodup := List.Nodup.of_map _ hnd
    have hnodup2 := (downloadAux_perm env (l1 ++ r :: l2) σ).symm.nodup hnodup
    intro hboth
    exact (List.nodup_append.mp hnodup2).2.2 hboth.1 hboth.2
  have ho : (processRecord env (downloadAux env σ l1).storage r).1 = .downloaded := by
    cases hoc : (processRecord env (downloadAux env σ l1).storage r).1 with
    | downloaded => rfl
    | pending => exact absurd ⟨hr, hfocus1.2.2.2 hoc⟩ hdisj
  obtain ⟨bs, hbs, hck⟩ := processRecord_downloaded_post env _ r ho
  have hstore1 : (downloadAux env σ (l1 ++ r :: l2)).storage r.name = some bs := by
    rw [hfocus1.2.1]
    exact hbs
  have hfocus2 := downloadAux_focus env
    (downloadAux env σ (l1 ++ r :: l2)).storage l1 l2 r hl1 hl2
  have hpre : (downloadAux env (downloadAux env σ (l1 ++ r :: l2)).storage l1).storage r.name
      = (downloadAux env σ (l1 ++ r :: l2)).storage r.name :=
    downloadAux_storage_stable env l1 _ r.name hl1
  have hskip2 := processRecord_skip env
    (downloadAux env (downloadAux env σ (l1 ++ r :: l2)).storage l1).storage r bs
    (by rw [hpre, hstore1]) hck
  rw [hfocus2.1, hskip2]

/-- C4 witness: one record downloaded by a first call moves zero bytes in
the second call. -/
theorem download_idempotence_witness :
    bytesFor sRec1.name
      (downloadAux sEnv (downloadAux sEnv sStorage [sRec1]).storage [sRec1]).netLog = 0 := by
  have h := download_idempotence sEnv sStorage [sRec1]
    (downloadAux sEnv sStorage [sRec1])
    (downloadAux sEnv (downloadAux sEnv sStorage [sRec1]).storage [sRec1])
    sRec1 (by decide) rfl rfl (by decide)
  exact h.1

/-- C5 counterexample: an offline record that already has a complete,
checksum-matching local artifact is classified as downloaded — not placed
in `pending` — so the claim fails as stated for such records. -/
theorem offline_skip_counterexample :
    offRecord.online = false
    ∧ (download offEnv offStorage [offRecord]).toOption.map
        (fun res => res.pending) = some []
    ∧ (download offEnv offStorage [offRecord]).toOption.map
        (fun res => res.downloaded) = some [offRecord] := by
  refine ⟨rfl, ?_, ?_⟩ <;> decide

/-- C5 as amended: every offline record with no checksum-matching local
artifact is placed directly in `pending`, with zero network bytes and its
artifact store entry untouched. -/
theorem offline_record_pending (env : Env) (σ : Storage)
    (rs : List ProductRecord) (res : DownloadResult) (r : ProductRecord)
    (hnd : (rs.map (fun x => x.name)).Nodup)
    (h : download env σ rs = .ok res) (hmem : r ∈ rs)
    (hoff : r.online = false)
    (hart : ∀ bs, σ r.name = some bs → computeChecksum bs ≠ r.checksum) :
    r ∈ res.pending ∧ bytesFor r.name res.netLog = 0
    ∧ res.storage r.name = σ r.name := by
  have hw : env.writable = true := by
    by_contra hw
    have hw' : env.writable = false := by simpa using hw
    simp [download, hw'] at h
  have hres : downloadAux env σ rs = res := by
    have hc := h
    simp [download, hw] at hc
    exact hc
  subst hres
  obtain ⟨l1, l2, hsplit, hl1, hl2⟩ := mem_split_of_nodup_names rs r hnd hmem
  subst hsplit
  have hfocus := downloadAux_focus env σ l1 l2 r hl1 hl2
  have hpre : (downloadAux env σ l1).storage r.name = σ r.name :=
    downloadAux_storage_stable env l1 σ r.name hl1
  have hstep := processRecord_offline env (downloadAux env σ l1).storage r hoff
    (fun bs hb => hart bs (hpre ▸ hb))
  refine ⟨?_, ?_, ?_⟩
  · exact hfocus.2.2.2 (by rw [hstep])
  · rw [hfocus.1, hstep]
  · rw [hfocus.2.1, hstep]
    exact hpre

/-- C5 amended-claim witness: a concrete offline record with no local
artifact lands in `pending`. -/
theorem offline_record_pending_witness :
    sRec2 ∈ (downloadAux sEnv sStorage [sRec2]).pending := by
  have h := offline_record_pending sEnv sStorage [sRec2]
    (downloadAux sEnv sStorage [sRec2]) sRec2
    (by decide) rfl (by decide) rfl
    (by intro bs hb; simp [sStorage] at hb)
  exact h.1

/-- C9: a record whose local artifact matches exactly the first N payload
bytes (and whose transfer is warranted) is resumed from byte offset N: a
transport able to deliver the rest moves exactly `payload.length − N`
bytes rather than the full payload, and a transport failure leaves the
extended partial artifact in place under the record's own name, so a later
resume can locate it. -/
theorem download_resume_offset (env : Env) (σ : Storage)
    (rs : List ProductRecord) (res : DownloadResult) (r : ProductRecord)
    (N : Nat) (hnd : (rs.map (fun x => x.name)).Nodup)
    (h : download env σ rs = .ok res) (hmem : r ∈ rs)
    (hpart : σ r.name = some (r.payload.take N))
    (hN : N < r.payload.length)
    (hnot : computeChecksum (r.payload.take N) ≠ r.checksum)
    (hon : r.online = true) :
    (r.payload.length - N ≤ env.deliver r.id →
        bytesFor r.name res.netLog = r.payload.length - N)
    ∧ (env.deliver r.id < r.payload.length - N →
        res.storage r.name = some (r.payload.take (N + env.deliver r.id))
        ∧ r ∈ res.pending) := by
  have hw : env.writable = true := by
    by_contra hw
    have hw' : env.writable = false := by simpa using hw
    simp [download, hw'] at h
  have hres : downloadAux env σ rs = res := by
    have hc := h
    simp [download, hw] at hc
    exact hc
  subst hres
  obtain ⟨l1, l2, hsplit, hl1, hl2⟩ := mem_split_of_nodup_names rs r hnd hmem
  subst hsplit
  have hfocus := downloadAux_focus env σ l1 l2 r hl1 hl2
  have hpre : (downloadAux env σ l1).storage r.name = σ r.name :=
    downloadAux_storage_stable env l1 σ r.name hl1
  have hres := processRecord_resume env (downloadAux env σ l1).storage r N
    (by rw [hpre, hpart]) hN hnot hon
  constructor
  · intro hge
    rw [hfocus.1, hres.1 hge]
  · intro hlt
    have hstep := hres.2 hlt
    refine ⟨?_, ?_⟩
    · rw [hfocus.2.1, hstep]
      simp [Storage.update]
    · exact hfocus.2.2.2 (by rw [hstep])

/-- C9 witness: a one-byte partial of a three-byte payload resumes with
exactly two bytes moved. -/
theorem download_resume_offset_witness :
    bytesFor dRec.name (downloadAux sEnv dStorage [dRec]).netLog = 2 := by
  have h := download_resume_offset sEnv dStorage [dRec]
    (downloadAux sEnv dStorage [dRec]) dRec 1
    (by decide) rfl (by decide) (by decide) (by decide) (by decide) rfl
  exact h.1 (by decide)

end WqSatGet
